import Mathlib

/-!
Shallow embedding of `ipyparallel/controller/sqlitedb.py` (the SQLite
TaskRecord backend) and proofs about its codec layer, schema-drift
resolution, filter-to-SQL translation and record-store operations.

SQLite itself is an external engine; where an operation's outcome is
decided by documented SQLite semantics (PRIMARY KEY uniqueness, NULL
comparison behaviour, value ordering), those semantics are embedded
explicitly and commented at the definition site.
-/

namespace SqliteDB

/-- A storable SQLite column value (the storage classes the backend
actually binds: NULL, INTEGER, TEXT, BLOB). -/
inductive Value where
  | vnull : Value
  | vint : Int → Value
  | vtext : String → Value
  | vblob : List Nat → Value
deriving DecidableEq

/-- `SQLiteDB._keys`: the ordered list of the 22 column names. -/
def _keys : List String :=
  [ "msg_id"
  , "header"
  , "metadata"
  , "content"
  , "buffers"
  , "submitted"
  , "client_uuid"
  , "engine_uuid"
  , "started"
  , "completed"
  , "resubmitted"
  , "received"
  , "result_header"
  , "result_metadata"
  , "result_content"
  , "result_buffers"
  , "queue"
  , "execute_input"
  , "execute_result"
  , "error"
  , "stdout"
  , "stderr" ]

/-- `SQLiteDB._types`: declared sqlite type string for each column
(used to check that an existing table is in the current format). -/
def _types : List (String × String) :=
  [ ("msg_id", "text")
  , ("header", "dict text")
  , ("metadata", "dict text")
  , ("content", "dict text")
  , ("buffers", "bufs blob")
  , ("submitted", "timestamp")
  , ("client_uuid", "text")
  , ("engine_uuid", "text")
  , ("started", "timestamp")
  , ("completed", "timestamp")
  , ("resubmitted", "text")
  , ("received", "timestamp")
  , ("result_header", "dict text")
  , ("result_metadata", "dict text")
  , ("result_content", "dict text")
  , ("result_buffers", "bufs blob")
  , ("queue", "text")
  , ("execute_input", "text")
  , ("execute_result", "text")
  , ("error", "text")
  , ("stdout", "text")
  , ("stderr", "text") ]

/-! ## Codec layer: the buffer-list adapter / converter

`_adapt_bufs` pickles a non-empty list of byte blocks into one binary
envelope (`pickle.dumps([memoryview(buf).tobytes() for buf in bufs], -1)`)
and maps a falsy input (`None` or `[]`) to `None`.  `_convert_bufs` maps
`None` to `[]` and otherwise unpickles.  A byte block is modelled as a
list of byte values; `pickle.dumps` / `pickle.loads` on a list of byte
strings is modelled as an executable lossless length-prefixed
serialization of the list (count, then each block as length + bytes),
which captures the contract the backend relies on: `loads (dumps x) = x`.
-/

/-- One opaque byte block (`bytes` / `memoryview.tobytes()`). -/
abbrev ByteBlock := List Nat

/-- Model of `pickle.dumps` on a list of byte blocks: a single flat
envelope, length-prefixed and lossless. -/
def pickleDumps (blocks : List ByteBlock) : List Nat :=
  blocks.length :: (blocks.map (fun b => b.length :: b)).flatten

/-- Read one length-prefixed block from an envelope tail. -/
def readBlock : List Nat → Option (ByteBlock × List Nat)
  | [] => none
  | len :: rest =>
    if len ≤ rest.length then some (rest.take len, rest.drop len) else none

/-- Read `n` length-prefixed blocks from an envelope tail. -/
def readBlocks : Nat → List Nat → Option (List ByteBlock × List Nat)
  | 0, rest => some ([], rest)
  | n + 1, rest =>
    match readBlock rest with
    | none => none
    | some (b, rest1) =>
      match readBlocks n rest1 with
      | none => none
      | some (bs, rest2) => some (b :: bs, rest2)

/-- Model of `pickle.loads` on an envelope produced by `pickleDumps`
(partial: garbage input yields `none`). -/
def pickleLoads (env : List Nat) : Option (List ByteBlock) :=
  match env with
  | [] => none
  | n :: rest =>
    match readBlocks n rest with
    | none => none
    | some (bs, rest1) => if rest1 = [] then some bs else none

/-- `_adapt_bufs`: `None`/`[]` (falsy) encodes to `None` (absent);
a non-empty list of byte blocks (so `bufs[0]` is `bytes`/`memoryview`)
is pickled into a single binary envelope. -/
def _adapt_bufs : Option (List ByteBlock) → Option (List Nat)
  | none => none
  | some [] => none
  | some (b :: bs) => some (pickleDumps (b :: bs))

/-- `_convert_bufs`: `None` decodes to the empty list, otherwise
unpickle the envelope. -/
def _convert_bufs : Option (List Nat) → Option (List ByteBlock)
  | none => some []
  | some env => pickleLoads env

/-! ## Filter translator (`_render_expression`)

A Mongo-style search dict is a mapping from field name to either a
literal value (equality check) or a nested dict of operator → operand.
Python dicts are modelled as association lists in insertion order with
unique keys.  The Python code raises `KeyError` / `ValueError` /
`NameError` (the latter when `join` is read while unbound, i.e. a
list operand reaches a non-expanding operator); results are modelled
with `Except`.
-/

/-- An operator's SQL rendering: either a plain comparison operator, or
(for `$in` / `$nin`) a comparison operator together with a join string
used to expand a list operand (`operators` maps those to tuples). -/
inductive OpSpec where
  | plain : String → OpSpec
  | expand : String → String → OpSpec
deriving DecidableEq

/-- The `operators` dict. -/
def operators : List (String × OpSpec) :=
  [ ("$lt", .plain "<")
  , ("$gt", .plain ">")
  , ("$eq", .plain "=")
  , ("$ne", .plain "!=")
  , ("$lte", .plain "<=")
  , ("$gte", .plain ">=")
  , ("$in", .expand "=" " OR ")
  , ("$nin", .expand "!=" " AND ") ]

/-- The `null_operators` dict. -/
def null_operators : List (String × String) :=
  [ ("=", "IS NULL")
  , ("!=", "IS NOT NULL") ]

/-- The operand attached to one operator inside a nested test dict:
a scalar value or a list of values. -/
inductive Operand where
  | scalar : Value → Operand
  | values : List Value → Operand
deriving DecidableEq

/-- One entry of a search dict: a literal value (equality check) or a
nested dict of operator → operand. -/
inductive SubCheck where
  | lit : Value → SubCheck
  | ops : List (String × Operand) → SubCheck
deriving DecidableEq

/-- A Mongo-style search dict: field name → sub-check, in insertion
order. -/
abbrev Check := List (String × SubCheck)

/-- Errors raised while rendering or executing (KeyError, ValueError,
NameError for the unbound `join` local, sqlite3.IntegrityError for a
PRIMARY KEY collision, sqlite3.OperationalError for malformed SQL). -/
inductive DbErr where
  | keyError : String → DbErr
  | valueError : String → DbErr
  | nameError : DbErr
  | integrityError : DbErr
  | operationalError : DbErr
deriving DecidableEq

/-- Render one `test : value` pair of a nested operator dict for field
`name` (the body of the inner loop of `_render_expression`): returns
the expression string and the bound parameters it contributes. -/
def renderTest (name : String) (test : String) (operand : Operand) :
    Except DbErr (String × List Value) :=
  match operators.lookup test with
  | none => .error (.keyError ("Unsupported operator: " ++ test))
  | some spec =>
    let op := match spec with | .plain o => o | .expand o _ => o
    let join? := match spec with | .plain _ => none | .expand _ j => some j
    match operand with
    | .scalar v =>
      -- `if value is None and op in null_operators`
      if v = .vnull ∧ (null_operators.lookup op).isSome then
        .ok (name ++ " " ++ (null_operators.lookup op).getD "", [])
      else
        .ok (name ++ " " ++ op ++ " ?", [v])
    | .values vs =>
      -- a list operand is never `None`; `expr = f"{name} {op} ?"` then expand
      if (null_operators.lookup op).isSome ∧ vs.contains .vnull then
        -- equality tests don't work with NULL
        .error (.valueError ("Cannot use " ++ test ++ " test with NULL values on SQLite backend"))
      else
        match join? with
        | none => .error .nameError  -- `join` read while unbound
        | some join =>
          .ok ("( " ++ String.intercalate join
                (List.replicate vs.length (name ++ " " ++ op ++ " ?")) ++ " )", vs)

/-- Render the nested operator dict of one field, in order. -/
def renderTests (name : String) : List (String × Operand) →
    Except DbErr (List String × List Value)
  | [] => .ok ([], [])
  | (test, operand) :: rest =>
    match renderTest name test operand with
    | .error e => .error e
    | .ok (e, a) =>
      match renderTests name rest with
      | .error err => .error err
      | .ok (es, as1) => .ok (e :: es, a ++ as1)

/-- Render the per-field items of a search dict, in order, collecting
expression strings and bound parameters. -/
def renderItems : Check → Except DbErr (List String × List Value)
  | [] => .ok ([], [])
  | (name, sub) :: rest =>
    match sub with
    | .lit v =>
      -- equality check on a literal
      let ea : String × List Value :=
        if v = .vnull then (name ++ " IS NULL", []) else (name ++ " = ?", [v])
      match renderItems rest with
      | .error e => .error e
      | .ok (es, as1) => .ok (ea.1 :: es, ea.2 ++ as1)
    | .ops tests =>
      match renderTests name tests with
      | .error e => .error e
      | .ok (es, as1) =>
        match renderItems rest with
        | .error e => .error e
        | .ok (es2, as2) => .ok (es ++ es2, as1 ++ as2)

/-- `_render_expression`: validate the tested keys, then turn the
search dict into an SQL WHERE expression plus ordered bound
parameters.  The validation computes
`skeys = set(check) - set(self._keys) - {buffers, result_buffers}`
and raises `KeyError` when non-empty. -/
def _render_expression (check : Check) : Except DbErr (String × List Value) :=
  let skeys := ((check.map Prod.fst).filter (fun k => !(_keys.contains k))).filter
    (fun k => k ≠ "buffers" ∧ k ≠ "result_buffers")
  if skeys ≠ [] then
    .error (.keyError "Illegal testing key(s)")
  else
    match renderItems check with
    | .error e => .error e
    | .ok (expressions, args) => .ok (String.intercalate " AND " expressions, args)

/-! ## Engine model: SQLite value comparison and ordering

SQLite compares values first by storage class (NULL < INTEGER < TEXT <
BLOB) and then within the class (numeric order, text order, memcmp on
blobs); `ORDER BY submitted ASC` sorts by exactly this order, NULLs
first.  Any `=`, `!=`, `<`, ... comparison *with* NULL yields NULL,
which is false as a WHERE condition.  This is modelled by an injective
sort key into a lexicographic linear order. -/

/-- Lexicographic "less or equal" on lists, comparing elements through
a numeric key (used for TEXT and BLOB comparison). -/
def lexLe (f : α → Nat) : List α → List α → Bool
  | [], _ => true
  | _ :: _, [] => false
  | a :: as, b :: bs => decide (f a < f b) || (f a == f b && lexLe f as bs)

/-- SQLite value ordering, as used by `ORDER BY ... ASC`: by storage
class (NULL < INTEGER < TEXT < BLOB), then within the class by numeric
order, text order or memcmp. -/
def valueLeB : Value → Value → Bool
  | .vnull, _ => true
  | .vint _, .vnull => false
  | .vint x, .vint y => decide (x ≤ y)
  | .vint _, .vtext _ => true
  | .vint _, .vblob _ => true
  | .vtext _, .vnull => false
  | .vtext _, .vint _ => false
  | .vtext s, .vtext t => lexLe Char.toNat s.data t.data
  | .vtext _, .vblob _ => true
  | .vblob _, .vnull => false
  | .vblob _, .vint _ => false
  | .vblob _, .vtext _ => false
  | .vblob x, .vblob y => lexLe id x y

/-- One WHERE-clause comparison `v op w` under SQLite semantics:
NULL on either side makes the condition false. -/
def sqlCompare (op : String) (v w : Value) : Bool :=
  if v = .vnull ∨ w = .vnull then false
  else if op = "=" then v == w
  else if op = "!=" then v != w
  else if op = "<" then !(valueLeB w v)
  else if op = ">" then !(valueLeB v w)
  else if op = "<=" then valueLeB v w
  else if op = ">=" then valueLeB w v
  else false

/-- Evaluate, on one column value, the condition that `renderTest`
compiled for `test : operand` (the engine-side meaning of the
generated SQL fragment with its bound parameters). -/
def matchesTest (v : Value) (test : String) (operand : Operand) : Bool :=
  match operators.lookup test with
  | none => false
  | some spec =>
    let op := match spec with | .plain o => o | .expand o _ => o
    match operand with
    | .scalar w =>
      if w = .vnull ∧ (null_operators.lookup op).isSome then
        -- `name IS NULL` / `name IS NOT NULL`
        if op = "=" then v == .vnull else v != .vnull
      else sqlCompare op v w
    | .values vs =>
      -- `( name op ? OR/AND ... )`, one disjunct/conjunct per element
      if op = "=" then vs.any (fun w => sqlCompare "=" v w)
      else vs.all (fun w => sqlCompare "!=" v w)

/-! ## Record store -/

/-- The rows of the bound table, in insertion order; every row is a
22-element column-value list laid out along `_keys` (all inserts go
through `add_record`, which builds exactly that shape). -/
structure Store where
  rows : List (List Value)
deriving DecidableEq

/-- Index of a column name in `_keys`. -/
def colIndex (k : String) : Nat := _keys.findIdx (fun x => x == k)

/-- The value of column `k` in a row. -/
def rowGet (row : List Value) (k : String) : Value :=
  row.getD (colIndex k) .vnull

/-- Evaluate the WHERE clause compiled from `check` on one row (the
engine-side meaning of the query `_render_expression` produced;
per-field conditions are ANDed). -/
def matchesCheck (check : Check) (row : List Value) : Bool :=
  check.all fun nc =>
    match nc.2 with
    | .lit .vnull => rowGet row nc.1 == .vnull
    | .lit w => sqlCompare "=" (rowGet row nc.1) w
    | .ops tests => tests.all fun to2 => matchesTest (rowGet row nc.1) to2.1 to2.2

/-- `_defaults` merged with `rec` and `d[msg_id] = msg_id`, then
`_dict_to_list`: the positional row inserted by `add_record`.  Keys of
`rec` outside `_keys` are silently dropped by `_dict_to_list`. -/
def recordLine (msgId : String) (rec : List (String × Value)) : List Value :=
  _keys.map fun k => if k = "msg_id" then .vtext msgId else (rec.lookup k).getD .vnull

/-- `_list_to_dict`: rebuild a record dict from a row, in key order,
missing trailing columns defaulting to null. -/
def _list_to_dict (keys : List String) (line : List Value) : List (String × Value) :=
  keys.enum.map fun ik => (ik.2, line.getD ik.1 .vnull)

/-- `add_record`: build the full row and INSERT it.  `msg_id` is the
table's PRIMARY KEY (see the CREATE TABLE statement), so SQLite rejects
the INSERT with an IntegrityError — atomically, writing nothing — when
a row with the same `msg_id` already exists. -/
def add_record (st : Store) (msgId : String) (rec : List (String × Value)) :
    Except DbErr Store :=
  let line := recordLine msgId rec
  if st.rows.any (fun row => rowGet row "msg_id" == .vtext msgId) then
    .error .integrityError
  else
    .ok ⟨st.rows ++ [line]⟩

/-- `get_record`: `SELECT * ... WHERE msg_id==?`, first matching row,
KeyError when there is none. -/
def get_record (st : Store) (msgId : String) : Except DbErr (List (String × Value)) :=
  match st.rows.find? (fun row => rowGet row "msg_id" == .vtext msgId) with
  | none => .error (.keyError ("No such msg: " ++ msgId))
  | some line => .ok (_list_to_dict _keys line)

/-- `update_record`: `UPDATE t SET k1 = ?, ... WHERE msg_id == ?` over
the lexicographically sorted keys of `rec`.  With an empty `rec` the
generated SQL is `UPDATE 't' SET  WHERE msg_id == ?`, which SQLite
rejects as a syntax error (OperationalError); a key that is not a
column of the table makes SQLite fail with `no such column`
(OperationalError).  Otherwise rows matching `msg_id` get the named
columns rewritten; matching zero rows updates nothing and is not an
error. -/
def update_record (st : Store) (msgId : String) (rec : List (String × Value)) :
    Except DbErr Store :=
  let keys := (rec.map Prod.fst).insertionSort (fun a b => lexLe Char.toNat a.data b.data = true)
  if keys = [] then .error .operationalError
  else if keys.any (fun k => !(_keys.contains k)) then .error .operationalError
  else
    .ok ⟨st.rows.map fun row =>
      if rowGet row "msg_id" == .vtext msgId then
        _keys.enum.map fun ik =>
          if keys.contains ik.2 then (rec.lookup ik.2).getD .vnull
          else row.getD ik.1 .vnull
      else row⟩

/-- `drop_matching_records`: render the check, then DELETE the matching
rows.  A render failure raises before the engine is called, leaving the
rows untouched. -/
def drop_matching_records (st : Store) (check : Check) : Except DbErr Store :=
  match _render_expression check with
  | .error e => .error e
  | .ok _ => .ok ⟨st.rows.filter (fun row => !(matchesCheck check row))⟩

/-- The `SELECT *` path of `find_records` (no usable projection):
render the check, filter the rows with the compiled predicate, rebuild
full record dicts. -/
def findRecordsAll (st : Store) (check : Check) :
    Except DbErr (List (List (String × Value))) :=
  match _render_expression check with
  | .error e => .error e
  | .ok _ =>
    .ok ((st.rows.filter (matchesCheck check)).map (fun row => _list_to_dict _keys row))

/-- `find_records`: validate the projection keys, force `msg_id` to be
present and first, render the check, then SELECT and rebuild record
dicts.  `if keys:` — both `None` and `[]` mean `SELECT *`. -/
def find_records (st : Store) (check : Check) (keys? : Option (List String)) :
    Except DbErr (List (List (String × Value))) :=
  match keys? with
  | none => findRecordsAll st check
  | some ks =>
    if ks = [] then findRecordsAll st check
    else if ks.filter (fun k => !(_keys.contains k)) ≠ [] then
      .error (.keyError "Bad record key(s)")
    else
      let outKeys := "msg_id" :: (ks.erase "msg_id")
      match _render_expression check with
      | .error e => .error e
      | .ok _ =>
        .ok ((st.rows.filter (matchesCheck check)).map
          (fun row => _list_to_dict outKeys (outKeys.map (fun k => rowGet row k))))

/-- Row comparison used by `ORDER BY submitted ASC`. -/
def rowLe (a b : List Value) : Prop :=
  valueLeB (rowGet a "submitted") (rowGet b "submitted") = true

instance : DecidableRel rowLe := fun a b =>
  inferInstanceAs (Decidable (valueLeB (rowGet a "submitted") (rowGet b "submitted") = true))

/-- `get_history`: all `msg_id`s, ordered by time submitted
(`SELECT msg_id FROM t ORDER by submitted ASC`). -/
def get_history (st : Store) : List Value :=
  (st.rows.insertionSort rowLe).map (fun row => rowGet row "msg_id")

/-! ## Schema manager (`_check_table` / `_init_db`) -/

/-- One existing table in the database file: its persisted schema
(column name and declared type, in order, as `PRAGMA table_info`
reports them) and its contents. -/
structure Table where
  schema : List (String × String)
  rows : List (List Value)
deriving DecidableEq

/-- The database file: table name → table, in creation order. -/
abbrev SqlDb := List (String × Table)

/-- The expected shape: the 22 `(column, declared type)` pairs of the
CREATE TABLE statement (identical to `_types` in `_keys` order). -/
def expectedSchema : List (String × String) := _types

/-- Does a persisted schema match the current format?  `_check_table`
collects the column names in order and a name → type dict (later
duplicates win, hence the reversed lookup), then compares against
`_keys` and `_types`. -/
def schemaMatches (s : List (String × String)) : Bool :=
  (s.map Prod.fst == _keys) &&
    _keys.all (fun k => (s.reverse.lookup k) == (_types.lookup k))

/-- `_check_table`: `PRAGMA table_info` returning no lines means the
table does not exist (usable); otherwise the persisted shape must
match the expected one. -/
def _check_table (db : SqlDb) (name : String) : Bool :=
  match db.lookup name with
  | none => true
  | some t => schemaMatches t.schema

/-- The i-th candidate table identity: the requested name, then
`f"{first_table}_{i}"` with the suffix always derived from the original
base name. -/
def candidate (base : String) : Nat → String
  | 0 => base
  | i + 1 => base ++ "_" ++ toString (i + 1)

/-- The rename-retry loop of `_init_db`
(`while not self._check_table(): i += 1; self.table = f"{first_table}_{i}"`).
The source loop has no bound and no failure path; `fuel` only makes it
a Lean function, and `none` means the loop is still running after
`fuel` further iterations. -/
def resolveTable (db : SqlDb) (base : String) : Nat → Nat → Option String
  | 0, i =>
    if _check_table db (candidate base i) then some (candidate base i) else none
  | f + 1, i =>
    if _check_table db (candidate base i) then some (candidate base i)
    else resolveTable db base f (i + 1)

/-- `_init_db` (after connecting): run the rename-retry loop from the
requested identity, then `CREATE TABLE IF NOT EXISTS` the resolved
identity with the expected 22-column schema.  Returns the resolved
identity and the resulting database. -/
def _init_db (db : SqlDb) (base : String) (fuel : Nat) : Option (String × SqlDb) :=
  match resolveTable db base fuel 0 with
  | none => none
  | some t =>
    some (t, if (db.lookup t).isSome then db else db ++ [(t, ⟨expectedSchema, []⟩)])

/-- An input that the spec's validation taxonomy classifies as invalid:
an unknown field name, an unknown operator, or a null value combined
with set membership. -/
def badCheck (check : Check) : Prop :=
  (∃ k, k ∈ check.map Prod.fst ∧ k ∉ _keys) ∨
  (∃ name tests t o, (name, SubCheck.ops tests) ∈ check ∧ (t, o) ∈ tests ∧
    operators.lookup t = none) ∨
  (∃ name tests t vs, (name, SubCheck.ops tests) ∈ check ∧ (t, Operand.values vs) ∈ tests ∧
    (t = "$in" ∨ t = "$nin") ∧ Value.vnull ∈ vs)

/-- An arbitrary table whose schema does not match the expected
22-column shape. -/
def driftTable : Table := ⟨[("msg_id", "text")], []⟩

/-- A database in which the first `n` candidate identities for `base`
all exist with drifted schemas. -/
def driftChain (base : String) (n : Nat) : SqlDb :=
  (List.range n).map (fun i => (candidate base i, driftTable))

/-! ## Properties of the buffer-list codec (claim C7) -/

theorem readBlock_prefix (b : ByteBlock) (rest : List Nat) :
    readBlock (b.length :: b ++ rest) = some (b, rest) := by
  simp [readBlock]

theorem readBlocks_dumps (blocks : List ByteBlock) (rest : List Nat) :
    readBlocks blocks.length ((blocks.map (fun b => b.length :: b)).flatten ++ rest) =
      some (blocks, rest) := by
  induction blocks generalizing rest with
  | nil => simp [readBlocks]
  | cons b bs ih =>
    simp only [List.map_cons, List.flatten_cons, List.length_cons]
    rw [readBlocks]
    have h1 : (b.length :: b) ++ ((bs.map (fun x => x.length :: x)).flatten ++ rest) =
        (b.length :: b ++ ((bs.map (fun x => x.length :: x)).flatten ++ rest)) := by
      simp
    rw [List.append_assoc, h1, readBlock_prefix]
    simp [ih]

theorem pickleLoads_pickleDumps (blocks : List ByteBlock) :
    pickleLoads (pickleDumps blocks) = some blocks := by
  have h := readBlocks_dumps blocks []
  rw [List.append_nil] at h
  simp [pickleLoads, pickleDumps, h]

/-- C7: for every ordered sequence of byte blocks, decoding the
buffer-list encoding reproduces exactly the same bytes, order and
length; encoding `None` or the empty sequence yields the absent value
(`None`), and decoding the absent value yields the empty sequence,
never null. -/
theorem c7_buffer_codec_roundtrip :
    (∀ b : Option (List ByteBlock), _convert_bufs (_adapt_bufs b) = some (b.getD [])) ∧
    _adapt_bufs none = none ∧
    _adapt_bufs (some []) = none ∧
    _convert_bufs none = some [] := by
  refine ⟨fun b => ?_, rfl, rfl, rfl⟩
  match b with
  | none => rfl
  | some [] => rfl
  | some (x :: xs) =>
    simp [_adapt_bufs, _convert_bufs, pickleLoads_pickleDumps]

/-! ## Properties of the SQLite value ordering -/

theorem lexLe_total (f : α → Nat) (x y : List α) :
    lexLe f x y = true ∨ lexLe f y x = true := by
  induction x generalizing y with
  | nil => left; rfl
  | cons a as ih =>
    cases y with
    | nil => right; rfl
    | cons b bs =>
      rcases Nat.lt_trichotomy (f a) (f b) with h | h | h
      · left; simp [lexLe, h]
      · rcases ih bs with h2 | h2
        · left; simp [lexLe, h, h2]
        · right; simp [lexLe, h, h2]
      · right; simp [lexLe, h]

theorem lexLe_trans (f : α → Nat) (x y z : List α) (hxy : lexLe f x y = true)
    (hyz : lexLe f y z = true) : lexLe f x z = true := by
  induction x generalizing y z with
  | nil => rfl
  | cons a as ih =>
    cases y with
    | nil => simp [lexLe] at hxy
    | cons b bs =>
      cases z with
      | nil => simp [lexLe] at hyz
      | cons c cs =>
        simp only [lexLe, Bool.or_eq_true, decide_eq_true_eq, Bool.and_eq_true,
          beq_iff_eq] at hxy hyz ⊢
        rcases hxy with h1 | ⟨h1, h1a⟩ <;> rcases hyz with h2 | ⟨h2, h2a⟩
        · left; omega
        · left; omega
        · left; omega
        · right; exact ⟨by omega, ih bs cs h1a h2a⟩

theorem lexLe_antisymm (f : α → Nat) (hf : ∀ a b, f a = f b → a = b)
    (x y : List α) (hxy : lexLe f x y = true) (hyx : lexLe f y x = true) : x = y := by
  induction x generalizing y with
  | nil => cases y with
    | nil => rfl
    | cons b bs => simp [lexLe] at hyx
  | cons a as ih =>
    cases y with
    | nil => simp [lexLe] at hxy
    | cons b bs =>
      simp only [lexLe, Bool.or_eq_true, decide_eq_true_eq, Bool.and_eq_true,
        beq_iff_eq] at hxy hyx
      rcases hxy with h1 | ⟨h1, h1a⟩ <;> rcases hyx with h2 | ⟨h2, h2a⟩ <;>
        try omega
      rw [hf a b h1, ih bs h1a h2a]

theorem valueLeB_total (a b : Value) : valueLeB a b = true ∨ valueLeB b a = true := by
  cases a <;> cases b <;> simp [valueLeB]
  · exact Int.le_total _ _
  · exact lexLe_total _ _ _
  · exact lexLe_total _ _ _

theorem valueLeB_trans (a b c : Value) (hab : valueLeB a b = true)
    (hbc : valueLeB b c = true) : valueLeB a c = true := by
  cases a <;> cases b <;> cases c <;> simp_all [valueLeB]
  · omega
  · exact lexLe_trans _ _ _ _ hab hbc
  · exact lexLe_trans _ _ _ _ hab hbc

theorem char_toNat_inj (a b : Char) (h : a.toNat = b.toNat) : a = b :=
  Char.ext (UInt32.ext h)

theorem string_data_inj (s t : String) (h : s.data = t.data) : s = t := by
  cases s
  cases t
  exact congrArg String.mk h

theorem valueLeB_antisymm (a b : Value) (hab : valueLeB a b = true)
    (hba : valueLeB b a = true) : a = b := by
  cases a <;> cases b <;> simp_all [valueLeB]
  · omega
  · exact string_data_inj _ _ (lexLe_antisymm Char.toNat char_toNat_inj _ _ hab hba)
  · exact lexLe_antisymm id (fun _ _ h => h) _ _ hab hba

/-! ## Claims C1 and C4: the filter translator -/

/-- C1, counterexample: the claim says a filter naming a buffer-list
field is rejected by validation even as an equality target.  In the
code, `skeys.difference_update({'buffers', 'result_buffers'})` is a
no-op because both names are already removed as members of `_keys`, so
a filter on `buffers` passes validation, compiles to an ordinary
equality predicate, and `find_records` executes it without error. -/
theorem c1_counterexample :
    _render_expression [("buffers", .lit (.vint 1))] = .ok ("buffers = ?", [.vint 1]) ∧
    find_records ⟨[]⟩ [("buffers", .lit (.vint 1))] none = .ok [] :=
  ⟨rfl, rfl⟩

/-- C1, amended: filter validation rejects exactly the field names
outside the 22-column catalog; the two buffer-list fields, being
catalog columns, are accepted even as equality targets and compile to
ordinary equality predicates (the explicit buffer exclusion in the
validation is a no-op). -/
theorem c1_buffer_fields_are_filterable (f : String) (v : Value)
    (hf : f = "buffers" ∨ f = "result_buffers") (hv : v ≠ .vnull) :
    _render_expression [(f, .lit v)] = .ok (f ++ " = ?", [v]) := by
  rcases hf with rfl | rfl <;>
    simp [_render_expression, renderItems, hv, String.intercalate, String.intercalate.go]

theorem c1_buffer_fields_are_filterable_witness :
    _render_expression [("result_buffers", .lit (.vint 7))] =
      .ok ("result_buffers" ++ " = ?", [.vint 7]) :=
  c1_buffer_fields_are_filterable "result_buffers" (.vint 7) (Or.inr rfl) (by decide)

/-- C4: for a filterable field `f` and a list `v` of non-null values,
`{f: {$in: v}}` compiles to `length v` equality sub-predicates joined
by OR with one bound parameter per element of `v`, parameters in list
order, and `{f: {$nin: v}}` to `length v` inequality sub-predicates
joined by AND, likewise ordered. -/
theorem c4_in_nin_expansion (f : String) (v : List Value)
    (hf : f ∈ _keys) (hv : Value.vnull ∉ v) :
    _render_expression [(f, .ops [("$in", .values v)])] =
      .ok ("( " ++ String.intercalate " OR " (List.replicate v.length (f ++ " = ?")) ++ " )", v) ∧
    _render_expression [(f, .ops [("$nin", .values v)])] =
      .ok ("( " ++ String.intercalate " AND " (List.replicate v.length (f ++ " != ?")) ++ " )", v) := by
  have hc : _keys.contains f = true := by simpa using hf
  have hnc : v.contains Value.vnull = false := by simpa using hv
  constructor <;>
    simp [_render_expression, renderItems, renderTests, renderTest, operators,
      null_operators, hc, hnc, hf, hv, List.lookup, String.intercalate,
      String.intercalate.go, String.append_assoc]

theorem c4_in_nin_expansion_witness :
    _render_expression [("queue", .ops [("$in", .values [.vint 1, .vint 2])])] =
      .ok ("( " ++ String.intercalate " OR "
        (List.replicate [Value.vint 1, Value.vint 2].length ("queue" ++ " = ?")) ++ " )",
        [.vint 1, .vint 2]) ∧
    _render_expression [("queue", .ops [("$nin", .values [.vint 1, .vint 2])])] =
      .ok ("( " ++ String.intercalate " AND "
        (List.replicate [Value.vint 1, Value.vint 2].length ("queue" ++ " != ?")) ++ " )",
        [.vint 1, .vint 2]) :=
  c4_in_nin_expansion "queue" [.vint 1, .vint 2] (by decide) (by decide)

/-! ## Claim C5: validation failures precede any engine call -/

theorem render_error_of_unknown_field (check : Check) (k : String)
    (hk : k ∈ check.map Prod.fst) (hbad : k ∉ _keys) :
    _render_expression check = .error (.keyError "Illegal testing key(s)") := by
  have h1 : k ≠ "buffers" := fun h => hbad (h ▸ (by decide))
  have h2 : k ≠ "result_buffers" := fun h => hbad (h ▸ (by decide))
  have hmem : k ∈ ((check.map Prod.fst).filter (fun x => !(_keys.contains x))).filter
      (fun x => x ≠ "buffers" ∧ x ≠ "result_buffers") := by
    simp [List.mem_filter, hk, hbad, h1, h2]
  have hne := List.ne_nil_of_mem hmem
  simp only [_render_expression]
  rw [if_pos hne]

theorem renderTest_ok_isSome (name t : String) (o : Operand) (p : String × List Value)
    (h : renderTest name t o = .ok p) : (operators.lookup t).isSome := by
  cases hl : operators.lookup t with
  | none => rw [renderTest, hl] at h; cases h
  | some spec => simp

theorem renderTest_ok_no_null_list (name t : String) (vs : List Value)
    (p : String × List Value) (h : renderTest name t (.values vs) = .ok p)
    (ht : t = "$in" ∨ t = "$nin") : Value.vnull ∉ vs := by
  intro hmem
  rcases ht with rfl | rfl <;>
    simp [renderTest, operators, List.lookup, null_operators, hmem] at h

theorem renderTests_ok_mem (name : String) (tests : List (String × Operand))
    (p : List String × List Value) (h : renderTests name tests = .ok p)
    (t : String) (o : Operand) (hmem : (t, o) ∈ tests) :
    ∃ q, renderTest name t o = .ok q := by
  induction tests generalizing p with
  | nil => cases hmem
  | cons hd tl ih =>
    obtain ⟨t0, o0⟩ := hd
    rw [renderTests] at h
    cases h1 : renderTest name t0 o0 with
    | error e => rw [h1] at h; cases h
    | ok q0 =>
      rw [h1] at h
      cases h2 : renderTests name tl with
      | error e => rw [h2] at h; cases h
      | ok q1 =>
        rcases List.mem_cons.mp hmem with heq | hmem2
        · obtain ⟨rfl, rfl⟩ := Prod.mk.injEq .. ▸ heq
          exact ⟨q0, h1⟩
        · exact ih q1 h2 hmem2

theorem renderItems_ok_mem (check : Check) (p : List String × List Value)
    (h : renderItems check = .ok p) (name : String) (tests : List (String × Operand))
    (hmem : (name, SubCheck.ops tests) ∈ check) :
    ∃ q, renderTests name tests = .ok q := by
  induction check generalizing p with
  | nil => cases hmem
  | cons hd tl ih =>
    obtain ⟨n0, s0⟩ := hd
    rcases List.mem_cons.mp hmem with heq | hmem2
    · obtain ⟨rfl, rfl⟩ := Prod.mk.injEq .. ▸ heq
      rw [renderItems] at h
      cases h1 : renderTests name tests with
      | error e => rw [h1] at h; cases h
      | ok q0 => exact ⟨q0, rfl⟩
    · cases s0 with
      | lit v =>
        rw [renderItems] at h
        cases h2 : renderItems tl with
        | error e => rw [h2] at h; cases h
        | ok q1 => exact ih q1 h2 hmem2
      | ops tests0 =>
        rw [renderItems] at h
        cases h1 : renderTests n0 tests0 with
        | error e => rw [h1] at h; cases h
        | ok q0 =>
          rw [h1] at h
          cases h2 : renderItems tl with
          | error e => rw [h2] at h; cases h
          | ok q1 => exact ih q1 h2 hmem2

theorem render_ok_renderItems (check : Check) (p : String × List Value)
    (h : _render_expression check = .ok p) : ∃ q, renderItems check = .ok q := by
  simp only [_render_expression] at h
  split at h
  · cases h
  · cases h2 : renderItems check with
    | error e => rw [h2] at h; cases h
    | ok q => exact ⟨q, rfl⟩

theorem render_error_of_badCheck (check : Check) (h : badCheck check) :
    ∃ e, _render_expression check = .error e := by
  rcases h with ⟨k, hk, hbad⟩ | ⟨name, tests, t, o, hc, ht, hop⟩ |
    ⟨name, tests, t, vs, hc, ht, hio, hnull⟩
  · exact ⟨_, render_error_of_unknown_field check k hk hbad⟩
  · cases hr : _render_expression check with
    | error e => exact ⟨e, rfl⟩
    | ok p =>
      obtain ⟨q, hq⟩ := render_ok_renderItems check p hr
      obtain ⟨q2, hq2⟩ := renderItems_ok_mem check q hq name tests hc
      obtain ⟨q3, hq3⟩ := renderTests_ok_mem name tests q2 hq2 t o ht
      have := renderTest_ok_isSome name t o q3 hq3
      rw [hop] at this
      cases this
  · cases hr : _render_expression check with
    | error e => exact ⟨e, rfl⟩
    | ok p =>
      obtain ⟨q, hq⟩ := render_ok_renderItems check p hr
      obtain ⟨q2, hq2⟩ := renderItems_ok_mem check q hq name tests hc
      obtain ⟨q3, hq3⟩ := renderTests_ok_mem name tests q2 hq2 t (.values vs) ht
      exact absurd hnull (renderTest_ok_no_null_list name t vs q3 hq3 hio)

theorem find_projection_error (st : Store) (check : Check) (ks : List String)
    (hne : ks ≠ []) (hbad : ∃ k, k ∈ ks ∧ k ∉ _keys) :
    find_records st check (some ks) = .error (.keyError "Bad record key(s)") := by
  obtain ⟨k, hk, hkbad⟩ := hbad
  have hfil : ks.filter (fun k => !(_keys.contains k)) ≠ [] :=
    List.ne_nil_of_mem (List.mem_filter.mpr ⟨hk, by simpa using hkbad⟩)
  rw [find_records, if_neg hne, if_pos hfil]

/-- C5: a filter containing an unknown field, an unknown operator, or a
null value combined with `$in`/`$nin` makes both `find_records` and
`drop_matching_records` raise synchronously, before the storage engine
is called, and a projection containing an unknown field name likewise
makes `find_records` raise first; since the error is raised before any
engine call, the rows are untouched (`drop_matching_records` returns
no new store on error). -/
theorem c5_validation_precedes_engine (st : Store) (check : Check)
    (keys? : Option (List String)) :
    (badCheck check →
      (∃ e, find_records st check keys? = .error e) ∧
      (∃ e, drop_matching_records st check = .error e)) ∧
    (∀ ks, ks ≠ [] → (∃ k, k ∈ ks ∧ k ∉ _keys) →
      find_records st check (some ks) = .error (.keyError "Bad record key(s)")) := by
  refine ⟨fun h => ?_, fun ks hne hbad => find_projection_error st check ks hne hbad⟩
  obtain ⟨e, he⟩ := render_error_of_badCheck check h
  refine ⟨?_, ⟨e, by simp [drop_matching_records, he]⟩⟩
  cases keys? with
  | none => exact ⟨e, by simp [find_records, findRecordsAll, he]⟩
  | some ks =>
    by_cases hks : ks = []
    · exact ⟨e, by simp [find_records, findRecordsAll, hks, he]⟩
    · by_cases hbad2 : ks.filter (fun k => !(_keys.contains k)) ≠ []
      · refine ⟨.keyError "Bad record key(s)", ?_⟩
        rw [find_records, if_neg hks, if_pos hbad2]
      · refine ⟨e, ?_⟩
        rw [find_records, if_neg hks, if_neg hbad2]
        simp only [he]

theorem c5_validation_precedes_engine_witness :
    ((∃ e, find_records ⟨[]⟩ [("unknown_field", .lit (.vint 1))] none = .error e) ∧
     (∃ e, drop_matching_records ⟨[]⟩ [("unknown_field", .lit (.vint 1))] = .error e)) ∧
    find_records ⟨[]⟩ [] (some ["bad_proj"]) = .error (.keyError "Bad record key(s)") :=
  ⟨(c5_validation_precedes_engine ⟨[]⟩ [("unknown_field", .lit (.vint 1))] none).1
     (Or.inl ⟨"unknown_field", by decide, by decide⟩),
   (c5_validation_precedes_engine ⟨[]⟩ [] (some ["bad_proj"])).2 ["bad_proj"]
     (by decide) ⟨"bad_proj", by decide, by decide⟩⟩

/-! ## Claim C6: duplicate insert -/

theorem rowGet_recordLine (id : String) (rec : List (String × Value)) :
    rowGet (recordLine id rec) "msg_id" = .vtext id := rfl

theorem add_record_ok (st st2 : Store) (id : String) (rec : List (String × Value))
    (h : add_record st id rec = .ok st2) :
    st.rows.any (fun row => rowGet row "msg_id" == .vtext id) = false ∧
    st2 = ⟨st.rows ++ [recordLine id rec]⟩ := by
  rw [add_record] at h
  split at h
  · cases h
  · rename_i hc
    cases h
    exact ⟨by simpa using hc, rfl⟩

/-- C6: a second `add_record` under an identifier already present in
the store fails with the PRIMARY KEY integrity error, and the record
stored by the first `add_record` still reads back unchanged afterwards
(the failed INSERT writes nothing). -/
theorem c6_duplicate_add (st st2 : Store) (id : String)
    (rec1 rec2 : List (String × Value)) (h : add_record st id rec1 = .ok st2) :
    add_record st2 id rec2 = .error .integrityError ∧
    get_record st2 id = .ok (_list_to_dict _keys (recordLine id rec1)) := by
  obtain ⟨hany, rfl⟩ := add_record_ok st st2 id rec1 h
  have hfind : st.rows.find? (fun row => rowGet row "msg_id" == .vtext id) = none := by
    rw [List.find?_eq_none]
    intro x hx
    simp only [List.any_eq_false] at hany
    simpa using hany x hx
  constructor
  · rw [add_record, if_pos]
    simp [List.any_append, rowGet_recordLine]
  · rw [get_record, List.find?_append, hfind]
    simp [List.find?_cons, rowGet_recordLine]

theorem c6_duplicate_add_witness :
    add_record ⟨[recordLine "m1" [("queue", .vtext "q")]]⟩ "m1" [("queue", .vtext "r")] =
      .error .integrityError ∧
    get_record ⟨[recordLine "m1" [("queue", .vtext "q")]]⟩ "m1" =
      .ok (_list_to_dict _keys (recordLine "m1" [("queue", .vtext "q")])) :=
  c6_duplicate_add ⟨[]⟩ ⟨[recordLine "m1" [("queue", .vtext "q")]]⟩ "m1"
    [("queue", .vtext "q")] [("queue", .vtext "r")] rfl

/-! ## Claim C9: projections -/

theorem list_to_dict_keys (keys : List String) (line : List Value) :
    (_list_to_dict keys line).map Prod.fst = keys := by
  simp only [_list_to_dict, List.map_map]
  exact List.enum_map_snd keys

/-- C9: with a non-empty projection, a name outside the 22-column
catalog fails validation before any query executes; otherwise every
returned record's field list is exactly `msg_id` followed by the other
requested fields — the identifier is always included and always
first. -/
theorem c9_projection (st : Store) (check : Check) (ks : List String) (hne : ks ≠ []) :
    ((∃ k, k ∈ ks ∧ k ∉ _keys) →
      find_records st check (some ks) = .error (.keyError "Bad record key(s)")) ∧
    ((∀ k ∈ ks, k ∈ _keys) → ∀ recs, find_records st check (some ks) = .ok recs →
      ∀ rec ∈ recs, rec.map Prod.fst = "msg_id" :: ks.erase "msg_id") := by
  constructor
  · rintro ⟨k, hk, hbad⟩
    have hfil : ks.filter (fun k => !(_keys.contains k)) ≠ [] :=
      List.ne_nil_of_mem (List.mem_filter.mpr ⟨hk, by simpa using hbad⟩)
    rw [find_records, if_neg hne, if_pos hfil]
  · intro hgood recs hfind rec hrec
    have hfil : ks.filter (fun k => !(_keys.contains k)) = [] := by
      rw [List.filter_eq_nil_iff]
      intro k hk
      simpa using hgood k hk
    rw [find_records, if_neg hne, if_neg (not_ne_iff.mpr hfil)] at hfind
    cases hrender : _render_expression check with
    | error e => rw [hrender] at hfind; cases hfind
    | ok p =>
      rw [hrender] at hfind
      cases hfind
      obtain ⟨row, hrow, rfl⟩ := List.mem_map.mp hrec
      exact list_to_dict_keys _ _

theorem c9_projection_witness :
    find_records ⟨[]⟩ [] (some ["nope"]) = .error (.keyError "Bad record key(s)") ∧
    (_list_to_dict ["msg_id", "queue"] [.vtext "a", .vnull]).map Prod.fst =
      "msg_id" :: (["queue"].erase "msg_id") :=
  ⟨(c9_projection ⟨[]⟩ [] ["nope"] (by decide)).1 ⟨"nope", by decide, by decide⟩,
   (c9_projection ⟨[recordLine "a" []]⟩ [] ["queue"] (by decide)).2 (by decide)
     [_list_to_dict ["msg_id", "queue"] [.vtext "a", .vnull]] rfl
     (_list_to_dict ["msg_id", "queue"] [.vtext "a", .vnull]) (by simp)⟩

/-! ## Claim C10: update on an absent identifier -/

/-- C10, counterexample: the claim quantifies over every partial-fields
mapping with valid column names, which includes the empty mapping; but
with an empty mapping `update_record` builds
`UPDATE 't' SET  WHERE msg_id == ?` — no SET assignments — which SQLite
rejects as a syntax error, so an error *is* raised even though the
identifier is absent. -/
theorem c10_counterexample :
    update_record ⟨[recordLine "a" []]⟩ "zzz" [] = .error .operationalError := rfl

/-- C10, amended: for an identifier absent from the store and a
*non-empty* partial-fields mapping whose keys are all valid column
names, `update_record` is a silent no-op: no error, and the store is
unchanged. -/
theorem c10_update_absent_noop (st : Store) (id : String) (rec : List (String × Value))
    (hrec : rec ≠ []) (hvalid : ∀ k ∈ rec.map Prod.fst, k ∈ _keys)
    (habsent : ∀ row ∈ st.rows, rowGet row "msg_id" ≠ .vtext id) :
    update_record st id rec = .ok st := by
  have hperm := List.perm_insertionSort
    (fun a b => lexLe Char.toNat a.data b.data = true) (rec.map Prod.fst)
  rw [update_record]
  rw [if_neg ?hne]
  case hne =>
    intro h0
    rw [h0] at hperm
    exact hrec (List.map_eq_nil_iff.mp (hperm.nil_eq).symm)
  rw [if_neg ?hval]
  case hval =>
    simp only [Bool.not_eq_true, List.any_eq_false]
    intro k hk
    simpa using hvalid k (hperm.mem_iff.mp hk)
  have hrows : (st.rows.map fun row =>
      if rowGet row "msg_id" == .vtext id then
        _keys.enum.map fun ik =>
          if ((rec.map Prod.fst).insertionSort
              (fun a b => lexLe Char.toNat a.data b.data = true)).contains ik.2 then
            (rec.lookup ik.2).getD .vnull
          else row.getD ik.1 .vnull
      else row) = st.rows := by
    conv_rhs => rw [← List.map_id st.rows]
    apply List.map_congr_left
    intro row hrow
    simp [habsent row hrow]
  rw [hrows]

theorem c10_update_absent_noop_witness :
    update_record ⟨[recordLine "a" []]⟩ "zzz" [("queue", .vnull)] =
      .ok ⟨[recordLine "a" []]⟩ :=
  c10_update_absent_noop ⟨[recordLine "a" []]⟩ "zzz" [("queue", .vnull)]
    (by decide) (by decide) (by decide)

/-! ## Claim C8: history ordering -/

theorem sorted_perm_distinct_eq :
    ∀ (l1 l2 : List (List Value)), l1.Perm l2 → l1.Pairwise rowLe → l2.Pairwise rowLe →
      l1.Pairwise (fun a b => rowGet a "submitted" ≠ rowGet b "submitted") → l1 = l2 := by
  intro l1
  induction l1 with
  | nil =>
    intro l2 hp _ _ _
    exact hp.nil_eq
  | cons a t1 ih =>
    intro l2 hp s1 s2 hd
    cases l2 with
    | nil => exact absurd hp.symm.nil_eq (by simp)
    | cons b t2 =>
      have hab2 : a = b := by
        have ha : a ∈ b :: t2 := hp.subset (List.mem_cons_self a t1)
        have hb : b ∈ a :: t1 := hp.symm.subset (List.mem_cons_self b t2)
        rcases List.mem_cons.mp ha with h1 | h1
        · exact h1
        rcases List.mem_cons.mp hb with h2 | h2
        · exact h2.symm
        have hle1 : rowLe a b := (List.pairwise_cons.mp s1).1 b h2
        have hle2 : rowLe b a := (List.pairwise_cons.mp s2).1 a h1
        have hkey := valueLeB_antisymm _ _ hle1 hle2
        exact absurd hkey ((List.pairwise_cons.mp hd).1 b h2)
      subst hab2
      rw [ih t2 hp.cons_inv (List.pairwise_cons.mp s1).2 (List.pairwise_cons.mp s2).2
        (List.pairwise_cons.mp hd).2]

/-- C8: `get_history` returns the `msg_id` of every stored record (a
permutation of the stored identifiers), taken from the rows sorted
ascending by the `submitted` column; and when the submission
timestamps are pairwise distinct the result is independent of the
order in which the records were inserted. -/
theorem c8_history_sorted (st : Store) :
    get_history st = (st.rows.insertionSort rowLe).map (fun row => rowGet row "msg_id") ∧
    (st.rows.insertionSort rowLe).Pairwise rowLe ∧
    (get_history st).Perm (st.rows.map fun row => rowGet row "msg_id") ∧
    (∀ st2 : Store, st.rows.Perm st2.rows →
      st.rows.Pairwise (fun a b => rowGet a "submitted" ≠ rowGet b "submitted") →
      get_history st = get_history st2) := by
  haveI : IsTotal (List Value) rowLe :=
    ⟨fun a b => valueLeB_total (rowGet a "submitted") (rowGet b "submitted")⟩
  haveI : IsTrans (List Value) rowLe :=
    ⟨fun _ _ _ hab hbc => valueLeB_trans _ _ _ hab hbc⟩
  refine ⟨rfl, List.sorted_insertionSort rowLe st.rows, ?_, ?_⟩
  · exact (List.perm_insertionSort rowLe st.rows).map _
  · intro st2 hp hd
    have h1 := List.perm_insertionSort rowLe st.rows
    have h2 := List.perm_insertionSort rowLe st2.rows
    have hsorteq : st.rows.insertionSort rowLe = st2.rows.insertionSort rowLe := by
      apply sorted_perm_distinct_eq
      · exact h1.trans (hp.trans h2.symm)
      · exact List.sorted_insertionSort rowLe st.rows
      · exact List.sorted_insertionSort rowLe st2.rows
      · exact ((List.Perm.pairwise_iff (fun h => h.symm) h1).mpr hd)
    rw [get_history, get_history, hsorteq]

theorem c8_history_sorted_witness :
    get_history ⟨[recordLine "a" [("submitted", .vint 2)],
                  recordLine "b" [("submitted", .vint 1)]]⟩ =
    get_history ⟨[recordLine "b" [("submitted", .vint 1)],
                  recordLine "a" [("submitted", .vint 2)]]⟩ :=
  (c8_history_sorted ⟨[recordLine "a" [("submitted", .vint 2)],
      recordLine "b" [("submitted", .vint 1)]]⟩).2.2.2
    ⟨[recordLine "b" [("submitted", .vint 1)], recordLine "a" [("submitted", .vint 2)]]⟩
    (List.Perm.swap _ _ _) (by decide)

/-! ## Claims C2 and C3: schema-drift resolution -/

theorem resolveTable_spec (db : SqlDb) (base : String) :
    ∀ (n fuel i : Nat), (∀ j, j < n → _check_table db (candidate base (i + j)) = false) →
      _check_table db (candidate base (i + n)) = true → n ≤ fuel →
      resolveTable db base fuel i = some (candidate base (i + n)) := by
  intro n
  induction n with
  | zero =>
    intro fuel i hlt hgood hle
    cases fuel <;> rw [resolveTable, if_pos (by simpa using hgood)] <;> simp
  | succ n ih =>
    intro fuel i hlt hgood hle
    have h0 : _check_table db (candidate base i) = false := by
      simpa using hlt 0 (Nat.succ_pos n)
    cases fuel with
    | zero => omega
    | succ f =>
      rw [resolveTable, if_neg (by simp [h0])]
      rw [show i + (n + 1) = (i + 1) + n by omega]
      refine ih f (i + 1) (fun j hj => ?_) ?_ (by omega)
      · have := hlt (j + 1) (by omega)
        rwa [show i + (j + 1) = (i + 1) + j by omega] at this
      · rwa [show i + (n + 1) = (i + 1) + n by omega] at hgood

theorem lookup_append_left {β : Type} (l1 l2 : List (String × β)) (k : String) (v : β)
    (h : l1.lookup k = some v) : (l1 ++ l2).lookup k = some v := by
  induction l1 with
  | nil => cases h
  | cons hd tl ih =>
    obtain ⟨k0, v0⟩ := hd
    rw [List.cons_append]
    simp only [List.lookup] at h ⊢
    cases hbe : k == k0 with
    | true => rw [hbe] at h; simpa using h
    | false => rw [hbe] at h; exact ih h

theorem lookup_all_const {β : Type} : ∀ (l : List (String × β)) (k : String) (v : β),
    (∀ p ∈ l, p.2 = v) → k ∈ l.map Prod.fst → l.lookup k = some v := by
  intro l
  induction l with
  | nil => intro k v _ hmem; cases hmem
  | cons hd tl ih =>
    intro k v hall hmem
    obtain ⟨k0, v0⟩ := hd
    simp only [List.lookup]
    cases hbe : k == k0 with
    | true =>
      have : v0 = v := hall (k0, v0) (List.mem_cons_self _ _)
      simp [this]
    | false =>
      refine ih k v (fun p hp => hall p (List.mem_cons_of_mem _ hp)) ?_
      have hmem2 : k = k0 ∨ k ∈ tl.map Prod.fst := by
        simpa only [List.map_cons, List.mem_cons] using hmem
      rcases hmem2 with rfl | h1
      · exact absurd hbe (by simp)
      · exact h1

theorem lookup_none_of_not_mem {β : Type} : ∀ (l : List (String × β)) (k : String),
    k ∉ l.map Prod.fst → l.lookup k = none := by
  intro l
  induction l with
  | nil => intro k _; rfl
  | cons hd tl ih =>
    intro k hmem
    obtain ⟨k0, v0⟩ := hd
    simp only [List.map_cons, List.mem_cons, not_or] at hmem
    simp only [List.lookup]
    cases hbe : k == k0 with
    | true => exact absurd (beq_iff_eq.mp hbe) hmem.1
    | false => exact ih k hmem.2

/-- C2: when the requested table `T` exists with a drifted schema, the
store binds the first candidate `T_1, T_2, ...` (suffix derived from
the original base name) that is unused or exactly matching, and `T`'s
entry — schema and contents — is untouched in the resulting
database. -/
theorem c2_schema_drift_rebind (db : SqlDb) (base : String) (tbl : Table) (n fuel : Nat)
    (hdrift : db.lookup base = some tbl)
    (hbad : schemaMatches tbl.schema = false)
    (hfirst : ∀ j, 0 < j → j < n → _check_table db (candidate base j) = false)
    (hgood : _check_table db (candidate base n) = true)
    (hfuel : n ≤ fuel) :
    ∃ db2, _init_db db base fuel = some (candidate base n, db2) ∧
      db2.lookup base = some tbl := by
  have h0 : _check_table db (candidate base 0) = false := by
    simp [candidate, _check_table, hdrift, hbad]
  have hres : resolveTable db base fuel 0 = some (candidate base n) := by
    have := resolveTable_spec db base n fuel 0 ?h1 (by simpa using hgood) hfuel
    · simpa using this
    case h1 =>
      intro j hj
      rcases Nat.eq_zero_or_pos j with rfl | hj0
      · simpa using h0
      · simpa using hfirst j hj0 hj
  rw [_init_db, hres]
  by_cases hmem : (db.lookup (candidate base n)).isSome
  · exact ⟨db, by simp [hmem], hdrift⟩
  · refine ⟨db ++ [(candidate base n, ⟨expectedSchema, []⟩)], by simp [hmem], ?_⟩
    exact lookup_append_left _ _ _ _ hdrift

theorem c2_schema_drift_rebind_witness :
    ∃ db2,
      _init_db [("t", ⟨[("msg_id", "text")], [[.vtext "old"]]⟩),
                ("t_1", ⟨[("msg_id", "text")], [[.vtext "old"]]⟩)] "t" 10 =
        some (candidate "t" 2, db2) ∧
      db2.lookup "t" = some ⟨[("msg_id", "text")], [[.vtext "old"]]⟩ :=
  c2_schema_drift_rebind
    [("t", ⟨[("msg_id", "text")], [[.vtext "old"]]⟩),
     ("t_1", ⟨[("msg_id", "text")], [[.vtext "old"]]⟩)]
    "t" ⟨[("msg_id", "text")], [[.vtext "old"]]⟩ 2 10 rfl (by decide)
    (fun j hj0 hj2 => by
      have hj1 : j = 1 := by omega
      subst hj1
      decide)
    (by decide) (by omega)

theorem driftChain_check_false (base : String) (n j : Nat) (hj : j < n) :
    _check_table (driftChain base n) (candidate base j) = false := by
  have hmem : candidate base j ∈ (driftChain base n).map Prod.fst := by
    simp only [driftChain, List.map_map]
    exact List.mem_map.mpr ⟨j, List.mem_range.mpr hj, rfl⟩
  have hl := lookup_all_const (driftChain base n) (candidate base j) driftTable ?_ hmem
  · simp [_check_table, hl]
    decide
  · intro p hp
    simp only [driftChain, List.mem_map] at hp
    obtain ⟨i, _, rfl⟩ := hp
    rfl

theorem driftChain_init (base : String) (n fuel : Nat) (hfuel : n ≤ fuel)
    (hfresh : candidate base n ∉ (driftChain base n).map Prod.fst) :
    _init_db (driftChain base n) base fuel =
      some (candidate base n,
        driftChain base n ++ [(candidate base n, ⟨expectedSchema, []⟩)]) := by
  have hnone := lookup_none_of_not_mem _ _ hfresh
  have hres : resolveTable (driftChain base n) base fuel 0 = some (candidate base n) := by
    have := resolveTable_spec (driftChain base n) base n fuel 0
      (fun j hj => by simpa using driftChain_check_false base n j hj)
      (by simp [_check_table, hnone]) hfuel
    simpa using this
  rw [_init_db, hres]
  simp [hnone]

set_option maxRecDepth 40000 in
/-- C3, counterexample: the claim says the rename-retry loop has a
fixed cap (the spec recommends 1000) past which the store fails
fatally.  With 1001 existing drifted candidates (`tasks`, `tasks_1`
... `tasks_1000`), the loop tries 1002 candidates and binds
`tasks_1001` successfully — it iterates past any 1000-attempt cap and
no fatal error exists in the code. -/
theorem c3_counterexample :
    _init_db (driftChain "tasks" 1001) "tasks" 1001 =
      some (candidate "tasks" 1001,
        driftChain "tasks" 1001 ++ [(candidate "tasks" 1001, ⟨expectedSchema, []⟩)]) :=
  driftChain_init "tasks" 1001 1001 (le_refl _) (by decide)

/-- C3, amended: the rename-retry loop is unbounded and has no failure
path: for every `n`, when the first `n` candidate identities all exist
with drifted schemas, the loop simply keeps iterating and binds the
`(n+1)`-st candidate; it terminates only because only finitely many
tables exist, never by a cap or a StorageUnavailable error. -/
theorem c3_rename_loop_unbounded (base : String) (n fuel : Nat) (hfuel : n ≤ fuel)
    (hfresh : candidate base n ∉ (driftChain base n).map Prod.fst) :
    _init_db (driftChain base n) base fuel =
      some (candidate base n,
        driftChain base n ++ [(candidate base n, ⟨expectedSchema, []⟩)]) :=
  driftChain_init base n fuel hfuel hfresh

theorem c3_rename_loop_unbounded_witness :
    _init_db (driftChain "t" 2) "t" 5 =
      some (candidate "t" 2,
        driftChain "t" 2 ++ [(candidate "t" 2, ⟨expectedSchema, []⟩)]) :=
  c3_rename_loop_unbounded "t" 2 5 (by omega) (by decide)

end SqliteDB
